import Mathlib

/-!
Shallow embedding of the question-generation and answer-validation engine of
the senator-quiz repository (`static/app.js`), together with the session
state (`GameState`) and the grading logic (`Validator`), and proofs of the
specification claims about them.

Modelling conventions, used throughout:

* JS strings are modelled as `List Char` (`JStr`); string literals are
  written `"...".toList`.
* JS `toLowerCase` is modelled per-character by `Char.toLower`, and
  `normalize("NFKD")` as the identity on characters.  Both are exact on the
  ASCII strings appearing in every claim; multi-character Unicode case
  mappings and decompositions are outside the model.
* `Math.random`-style sources are modelled as streams of fractions
  (`Frac`, a numerator/denominator pair of naturals standing for a value
  in `[0, 1)`) together with an explicit read position (`RngState`); the
  only operations the code applies to a drawn number, `Math.floor(f * n)`
  and `f < 0.5`, are modelled exactly on fractions by natural-number
  division and cross multiplication.  The generator threads two
  independent sources: the supplied `rnd` argument and the ambient
  `Math.random` that `makeId` and the Hard-mode coin flips call directly.
* The dynamic-programming table of `levenshtein` is modelled row by row by
  the recurrence the JS loops fill in: `dpLev a b i j` is the value the
  code stores in `dp[i][j]`.
-/

namespace SenatorQuiz

/-- JS strings, modelled as lists of characters. -/
abbrev JStr := List Char

/-- The JS regex class `\s` (whitespace), by code point: space, `\t\n\v\f\r`,
NBSP, U+1680, U+2000-U+200A, U+2028, U+2029, U+202F, U+205F, U+3000, U+FEFF. -/
def isJsSpace (c : Char) : Bool :=
  c.toNat = 32 || c.toNat = 9 || c.toNat = 10 || c.toNat = 11 || c.toNat = 12 ||
  c.toNat = 13 || c.toNat = 0xa0 || c.toNat = 0x1680 ||
  (0x2000 ≤ c.toNat && c.toNat ≤ 0x200a) || c.toNat = 0x2028 || c.toNat = 0x2029 ||
  c.toNat = 0x202f || c.toNat = 0x205f || c.toNat = 0x3000 || c.toNat = 0xfeff

/-- The combining diacritical marks U+0300-U+036F removed by the second
`replace` of `normalizeName`. -/
def isCombiningMark (c : Char) : Bool :=
  0x300 ≤ c.toNat && c.toNat ≤ 0x36f

/-- The character class kept by `replace(/[^a-z0-9\s]/g, "")`
(`a`-`z` is 97-122 and `0`-`9` is 48-57). -/
def isKeptChar (c : Char) : Bool :=
  (97 ≤ c.toNat && c.toNat ≤ 122) || (48 ≤ c.toNat && c.toNat ≤ 57) || isJsSpace c

/-- `replace(/\s+/g, " ")`: every maximal run of whitespace becomes one space. -/
def collapseSpaces : JStr → JStr
  | [] => []
  | [c] => if isJsSpace c then [' '] else [c]
  | c :: d :: rest =>
    if isJsSpace c then
      if isJsSpace d then collapseSpaces (d :: rest)
      else ' ' :: collapseSpaces (d :: rest)
    else c :: collapseSpaces (d :: rest)

/-- JS `String.prototype.trim`: strip whitespace from both ends. -/
def jsTrim (s : JStr) : JStr :=
  ((s.dropWhile isJsSpace).reverse.dropWhile isJsSpace).reverse

/-- `normalizeName` from `static/app.js`: lowercase, NFKD (identity in this
model), strip combining marks, drop everything outside `[a-z0-9\s]`,
collapse whitespace runs, trim. -/
def normalizeName (s : JStr) : JStr :=
  jsTrim (collapseSpaces
    (((s.map Char.toLower).filter (fun c => !isCombiningMark c)).filter isKeptChar))

/-- `lastNameOf` from `static/app.js`: normalize, split on `" "`, take the
final part (with `|| ""` yielding the empty string when there is none). -/
def lastNameOf (full : JStr) : JStr :=
  ((normalizeName full).splitOn ' ').getLastD []

/-- One row of the `levenshtein` DP table: given the previous row
(`prev j = dp[i][j]`) this computes `dp[i+1][j]` for the row whose
character is `a[i]`, exactly by the recurrence the JS inner loop fills in. -/
def dpLevRow (a b : JStr) (prev : Nat → Nat) (i : Nat) : Nat → Nat
  | 0 => i + 1
  | j + 1 =>
    min (prev (j + 1) + 1)
      (min (dpLevRow a b prev i j + 1)
        (prev j + (if a.getD i ' ' = b.getD j ' ' then 0 else 1)))

/-- The `levenshtein` DP table of `static/app.js`: `dpLev a b i j` is the
value stored in `dp[i][j]` (`dp[i][0] = i`, `dp[0][j] = j`, and the
min-of-three recurrence with unit costs). -/
def dpLev (a b : JStr) : Nat → Nat → Nat
  | 0 => fun j => j
  | i + 1 => dpLevRow a b (dpLev a b i) i

/-- `levenshtein` from `static/app.js`: normalizes both arguments itself,
then evaluates the DP table at the full lengths.  (The JS early returns for
`m === 0` / `n === 0` agree with the table's border values.) -/
def levenshtein (a b : JStr) : Nat :=
  let a' := normalizeName a
  let b' := normalizeName b
  dpLev a' b' a'.length b'.length

/-- `withinMisspellingThreshold` from `static/app.js`: distance at most 2
for normalized targets of length at least 7, at most 1 otherwise. -/
def withinMisspellingThreshold (input target : JStr) : Bool :=
  let t := normalizeName target
  let i := normalizeName input
  let dist := levenshtein i t
  if 7 ≤ t.length then dist ≤ 2 else dist ≤ 1

/-- Textbook Levenshtein distance with unit costs for insertion, deletion
and substitution (and no transpositions), by the standard recursion.  This
is the reference definition the spec's words describe; it is proved equal
to Mathlib's `levenshtein Levenshtein.defaultCost` below. -/
def levSpec : JStr → JStr → Nat
  | [], ys => ys.length
  | xs, [] => xs.length
  | x :: xs, y :: ys =>
    min (levSpec xs (y :: ys) + 1)
      (min (levSpec (x :: xs) ys + 1)
        (levSpec xs ys + (if x = y then 0 else 1)))

/-- A senator record as produced by `loadSenators` (all five fields are
strings there; a missing portrait is the falsy `""`). -/
structure Senator where
  name : JStr
  state : JStr
  party : JStr
  seniority : JStr
  portrait : JStr
deriving DecidableEq, Repr

/-- `officialName` from `static/app.js`. -/
def officialName (sen : Senator) : JStr := sen.name

/-- A generated question record.  `portrait_image` is `""` for the shapes
that do not set the top-level field (`portrait_only` stores its image path
inside `filled_variables` instead, as the JS does). -/
structure Question where
  id : JStr
  template : JStr
  filled_variables : List (JStr × JStr)
  difficulty : JStr
  correct_answers : List JStr
  allowed_answer_modes : List JStr
  qtype : JStr
  portrait_image : JStr
deriving DecidableEq, Repr

/-- The verdict record built by `Validator.validateAnswer`. -/
structure UserAnswer where
  question_id : JStr
  user_input : JStr
  is_correct : Bool
  accepted_as : JStr
  feedback : JStr
deriving DecidableEq, Repr

namespace Validator

/-- The `ok(kind, feedback)` helper closed over `question` and `userInput`
inside `validateAnswer`. -/
def ok (question : Question) (userInput : JStr) (kind feedback : JStr) : UserAnswer :=
  { question_id := question.id
    user_input := userInput
    is_correct := true
    accepted_as := kind
    feedback := feedback }

/-- `Validator.validateAnswer` from `static/app.js`, embedded as the
sequence of statements in source order.  (The shipped file has a stray
unmatched `\x7d` between the fuzzy last-name loop and the ambiguity check —
a JS syntax error at exactly that point; the embedding reads the statement
list through it.)  The early-returning `for` loops are rendered as `any`
since the returned verdict does not depend on which answer matched. -/
def validateAnswer (question : Question) (userInput : JStr) : UserAnswer :=
  let mode := question.difficulty
  let inputNorm := normalizeName userInput
  let correctNorms := question.correct_answers.map normalizeName
  if mode = "Hard".toList then
    -- Hard: exact full official name only
    let exact : Bool := inputNorm ∈ correctNorms
    { question_id := question.id
      user_input := userInput
      is_correct := exact
      accepted_as := "full_name".toList
      feedback :=
        if exact then "Correct.".toList
        else "Hard mode requires the full official name. Correct answer: \x27".toList
          ++ question.correct_answers.headD "undefined".toList ++ "\x27.".toList }
  else
    -- Easy mode: exact full name
    if inputNorm ∈ correctNorms then
      ok question userInput "full_name".toList "Correct.".toList
    else
      -- last name acceptance (if it maps to one of the allowed answers)
      let last := lastNameOf inputNorm
      let matchesByLast := question.correct_answers.filter (fun a => lastNameOf a = last)
      if matchesByLast.length = 1 ∧ last ≠ [] then
        ok question userInput "last_name".toList "Correct.".toList
      else if question.correct_answers.any (fun ans => withinMisspellingThreshold inputNorm ans) then
        ok question userInput "misspelling_correction".toList "Correct.".toList
      else if question.correct_answers.any
          (fun ans => withinMisspellingThreshold last (lastNameOf ans) && !last.isEmpty) then
        ok question userInput "misspelling_correction".toList "Correct.".toList
      -- ambiguous last name in Easy (multiple)
      else if matchesByLast.length > 1 then
        { question_id := question.id
          user_input := userInput
          is_correct := false
          accepted_as := "full_name".toList
          feedback := "Ambiguous last name. Try the full name or include more detail.".toList }
      else
        { question_id := question.id
          user_input := userInput
          is_correct := false
          accepted_as := "full_name".toList
          feedback := "Not quite. Easy accepts last names and mild misspellings.".toList }

end Validator

/-- One number drawn from a `Math.random`-style source, as the exact
nonnegative fraction `num / den`.  (Actual `Math.random` floats are dyadic
rationals in `[0, 1)`; the arithmetic the code does with a draw —
`Math.floor(r * n)`, `r < 0.5`, base-36 digits — is modelled exactly on
this representation.) -/
structure Frac where
  num : Nat
  den : Nat

/-- The draw is a well-formed `Math.random` value: a fraction in `[0, 1)`. -/
def Frac.valid (f : Frac) : Prop :=
  0 < f.den ∧ f.num < f.den

/-- JS `Math.floor(f * n)` for a draw `f`. -/
def Frac.floorMul (f : Frac) (n : Nat) : Nat :=
  f.num * n / f.den

/-- JS `f < 0.5` for a draw `f`. -/
def Frac.ltHalf (f : Frac) : Bool :=
  2 * f.num < f.den

/-- A `Math.random`-style number source: a stream of draws plus the
position of the next one. -/
structure RngState where
  stream : Nat → Frac
  idx : Nat

/-- Draw the next number from a source. -/
def RngState.draw (r : RngState) : Frac × RngState :=
  (r.stream r.idx, { r with idx := r.idx + 1 })

/-- A source is valid when every draw lies in `[0, 1)`, as `Math.random`
and any conforming supplied `rng` guarantee. -/
def RngState.valid (r : RngState) : Prop :=
  ∀ k, (r.stream k).valid

/-- `errorObject` from `static/app.js`. -/
structure ErrObj where
  error_type : JStr
  message : JStr
  details : Option (List (JStr × JStr))
deriving DecidableEq, Repr

def errorObject (error_type message : JStr) (details : Option (List (JStr × JStr))) : ErrObj :=
  { error_type := error_type, message := message, details := details }

/-- Outcome of a template filler or of `generateQuestion`: a question, or a
tagged error object (`isError` in the JS). -/
inductive QResult where
  | ok (q : Question)
  | err (e : ErrObj)
deriving DecidableEq, Repr

/-- `pickRandom` from `static/app.js`.  An empty array returns `null`
without drawing; otherwise one number is drawn and the array is indexed at
`Math.floor(rnd() * arr.length)` (`none` models the `undefined` an
out-of-range index would give for an out-of-contract draw). -/
def pickRandom (arr : List α) (r : RngState) : Option α × RngState :=
  if arr.length = 0 then (none, r)
  else
    let (f, r') := r.draw
    (arr.get? (f.floorMul arr.length), r')

/-- Swap two positions of a list (the JS destructuring swap).  Out-of-range
indices leave the list unchanged; they never occur for valid draws. -/
def swapAt (l : List α) (i j : Nat) : List α :=
  match l.get? i, l.get? j with
  | some a, some b => (l.set i b).set j a
  | _, _ => l

/-- The body of the Fisher–Yates loop in `shuffleInPlace`, for loop counter
values `i = n, n-1, ..., 1`: draw, `j = Math.floor(rnd() * (i + 1))`, swap. -/
def shuffleGo : List α → Nat → RngState → List α × RngState
  | l, 0, r => (l, r)
  | l, i + 1, r =>
    let (f, r') := r.draw
    let j := f.floorMul (i + 2)
    shuffleGo (swapAt l (i + 1) j) i r'

/-- `shuffleInPlace` from `static/app.js` (loop from `length - 1` down to `1`). -/
def shuffleInPlace (l : List α) (r : RngState) : List α × RngState :=
  if l.length = 0 then (l, r) else shuffleGo l (l.length - 1) r

/-- Digit characters for base-36 (`0-9a-z`). -/
def base36digit (n : Nat) : Char :=
  if n < 10 then Char.ofNat (48 + n) else Char.ofNat (87 + n)

/-- The first `k` base-36 fraction digits of `num / den`. -/
def base36fracDigits : Nat → Nat → Nat → List Nat
  | _, _, 0 => []
  | num, den, k + 1 =>
    (num * 36) / den :: base36fracDigits ((num * 36) % den) den k

/-- `makeId` from `static/app.js`: `"q_" + Math.random().toString(36).slice(2, 9)`.
One ambient draw; its first seven base-36 fraction digits with trailing
zeros stripped model the slice of the JS float-to-string output (exact
whenever the expansion terminates within seven digits, as for every draw
used in this file). -/
def makeId (amb : RngState) : JStr × RngState :=
  let (f, amb') := amb.draw
  let digits :=
    (((base36fracDigits f.num f.den 7).reverse.dropWhile (· = 0)).reverse).map base36digit
  ("q_".toList ++ digits, amb')

/-- JS string coercion of a possibly-`null` value (only ever applied where
valid draws make the value present). -/
def optVal (o : Option JStr) : JStr := o.getD "null".toList

/-- `groupByState`, restricted to what `stateAny` reads from it: the keys in
first-insertion order (JS object key order) and the per-state lists. -/
def statesInOrder (senators : List Senator) : List JStr :=
  go [] senators
where
  go (seen : List JStr) : List Senator → List JStr
    | [] => []
    | s :: rest =>
      if s.state ∈ seen then go seen rest
      else s.state :: go (s.state :: seen) rest

/-- `uniqueStates` from `static/app.js` (`[...new Set(map state)]`, which
also keeps first-insertion order). -/
def uniqueStates (senators : List Senator) : List JStr :=
  statesInOrder senators

/-- One clause of the `getByStatePartySeniority` filter: a falsy requirement
(`undefined`/`null`/`""`) is skipped, otherwise the field must match. -/
def checkField (req : Option JStr) (actual : JStr) : Bool :=
  match req with
  | none => true
  | some v => if v = [] then true else actual = v

/-- `getByStatePartySeniority` from `static/app.js`. -/
def getByStatePartySeniority (senators : List Senator)
    (state party seniority : Option JStr) : List Senator :=
  senators.filter (fun s =>
    checkField state s.state && checkField party s.party && checkField seniority s.seniority)

/-- `PORTRAIT_BASE` from `static/app.js`. -/
def PORTRAIT_BASE : JStr := "assets/".toList

/-- JS `s.portrait.startsWith("http")`. -/
def portraitStartsWithHttp (s : JStr) : Bool :=
  match s with
  | 'h' :: 't' :: 't' :: 'p' :: _ => true
  | _ => false

/-- The portrait URL resolution used by every portrait-bearing filler. -/
def portraitUrl (portrait : JStr) : JStr :=
  if portraitStartsWithHttp portrait then portrait else PORTRAIT_BASE ++ portrait

/-- The parties array used by `statePartyAny` and `statePartySeniority`. -/
def partiesList : List JStr := ["Democrat".toList, "Republican".toList, "Independent".toList]

/-- The seniorities array used by `stateSeniority` and `statePartySeniority`. -/
def senioritiesList : List JStr := ["Senior".toList, "Junior".toList]

namespace Generator

/-- `Generator.portraitOnly` from `static/app.js`. -/
def portraitOnly (difficulty : JStr) (senators : List Senator)
    (sup amb : RngState) : QResult × RngState × RngState :=
  let (sOpt, sup1) := pickRandom senators sup
  match sOpt with
  | none =>
    (.err (errorObject "data_missing".toList "Portrait asset not found.".toList
      (some [("senator".toList, "unknown".toList)])), sup1, amb)
  | some s =>
    if s.portrait = [] then
      (.err (errorObject "data_missing".toList "Portrait asset not found.".toList
        (some [("senator".toList, s.name)])), sup1, amb)
    else
      let (qid, amb1) := makeId amb
      (.ok
        { id := qid
          template := "Who is this senator?".toList
          filled_variables := [("portrait_image".toList, portraitUrl s.portrait)]
          difficulty := difficulty
          correct_answers := [officialName s]
          allowed_answer_modes :=
            if difficulty = "Easy".toList then ["last_name".toList, "full_name".toList]
            else ["full_name".toList]
          qtype := "portrait".toList
          portrait_image := [] }, sup1, amb1)

/-- `Generator.stateAny` from `static/app.js` (Easy only). -/
def stateAny (senators : List Senator) (sup amb : RngState) :
    QResult × RngState × RngState :=
  let states := (statesInOrder senators).filter
    (fun st => 1 ≤ (senators.filter (fun s => s.state = st)).length)
  let (stOpt, sup1) := pickRandom states sup
  let matchL : List Senator :=
    match stOpt with
    | some st => senators.filter (fun s => s.state = st)
    | none => []
  if matchL.length < 1 then
    (.err (errorObject "unsolvable_template".toList
      "No senators found for selected state.".toList
      (some [("state".toList, optVal stOpt)])), sup1, amb)
  else
    let (qid, amb1) := makeId amb
    (.ok
      { id := qid
        template := "Name a senator from \x7bstate\x7d.".toList
        filled_variables := [("state".toList, optVal stOpt)]
        difficulty := "Easy".toList
        correct_answers := matchL.map officialName
        allowed_answer_modes := ["last_name".toList, "full_name".toList]
        qtype := "text".toList
        portrait_image := [] }, sup1, amb1)

/-- The bounded-attempt loop of `Generator.statePartyAny` (30 tries). -/
def statePartyAnyGo (senators : List Senator) :
    Nat → RngState → RngState → QResult × RngState × RngState
  | 0, sup, amb =>
    (.err (errorObject "unsolvable_template".toList
      "Could not find a state+party with at least one match for Easy.".toList none), sup, amb)
  | n + 1, sup, amb =>
    let (stOpt, sup1) := pickRandom (uniqueStates senators) sup
    let (paOpt, sup2) := pickRandom partiesList sup1
    let matchL := getByStatePartySeniority senators stOpt paOpt none
    if 1 ≤ matchL.length then
      let (qid, amb1) := makeId amb
      (.ok
        { id := qid
          template := "Name a \x7bparty\x7d senator from \x7bstate\x7d.".toList
          filled_variables := [("party".toList, optVal paOpt), ("state".toList, optVal stOpt)]
          difficulty := "Easy".toList
          correct_answers := matchL.map officialName
          allowed_answer_modes := ["last_name".toList, "full_name".toList]
          qtype := "text".toList
          portrait_image := [] }, sup2, amb1)
    else statePartyAnyGo senators n sup2 amb

/-- `Generator.statePartyAny` from `static/app.js`. -/
def statePartyAny (senators : List Senator) (sup amb : RngState) :
    QResult × RngState × RngState :=
  statePartyAnyGo senators 30 sup amb

/-- The bounded-attempt loop of `Generator.stateSeniority` (40 tries,
uniqueness required). -/
def stateSeniorityGo (difficulty : JStr) (senators : List Senator) :
    Nat → RngState → RngState → QResult × RngState × RngState
  | 0, sup, amb =>
    (.err (errorObject "ambiguous_answer".toList
      "Could not enforce uniqueness for state+seniority.".toList none), sup, amb)
  | n + 1, sup, amb =>
    let (stOpt, sup1) := pickRandom (uniqueStates senators) sup
    let (seOpt, sup2) := pickRandom senioritiesList sup1
    let matchL := getByStatePartySeniority senators stOpt none seOpt
    match matchL with
    | [m] =>
      let (qid, amb1) := makeId amb
      (.ok
        { id := qid
          template := "Name the \x7bseniority\x7d Senator from \x7bstate\x7d.".toList
          filled_variables := [("state".toList, optVal stOpt), ("seniority".toList, optVal seOpt)]
          difficulty := difficulty
          correct_answers := [officialName m]
          allowed_answer_modes :=
            if difficulty = "Easy".toList then ["last_name".toList, "full_name".toList]
            else ["full_name".toList]
          qtype := "text".toList
          portrait_image := [] }, sup2, amb1)
    | _ => stateSeniorityGo difficulty senators n sup2 amb

/-- `Generator.stateSeniority` from `static/app.js`. -/
def stateSeniority (difficulty : JStr) (senators : List Senator) (sup amb : RngState) :
    QResult × RngState × RngState :=
  stateSeniorityGo difficulty senators 40 sup amb

/-- The bounded-attempt loop of `Generator.statePartySeniority` (50 tries,
uniqueness required; Hard only). -/
def statePartySeniorityGo (senators : List Senator) :
    Nat → RngState → RngState → QResult × RngState × RngState
  | 0, sup, amb =>
    (.err (errorObject "ambiguous_answer".toList
      "Could not enforce uniqueness for state+party+seniority in Hard.".toList none), sup, amb)
  | n + 1, sup, amb =>
    let (stOpt, sup1) := pickRandom (uniqueStates senators) sup
    let (paOpt, sup2) := pickRandom partiesList sup1
    let (seOpt, sup3) := pickRandom senioritiesList sup2
    let matchL := getByStatePartySeniority senators stOpt paOpt seOpt
    match matchL with
    | [m] =>
      let (qid, amb1) := makeId amb
      (.ok
        { id := qid
          template := "Name the \x7bparty\x7d \x7bseniority\x7d Senator from \x7bstate\x7d.".toList
          filled_variables :=
            [("party".toList, optVal paOpt), ("seniority".toList, optVal seOpt),
             ("state".toList, optVal stOpt)]
          difficulty := "Hard".toList
          correct_answers := [officialName m]
          allowed_answer_modes := ["full_name".toList]
          qtype := "text".toList
          portrait_image := [] }, sup3, amb1)
    | _ => statePartySeniorityGo senators n sup3 amb

/-- `Generator.statePartySeniority` from `static/app.js`. -/
def statePartySeniority (senators : List Senator) (sup amb : RngState) :
    QResult × RngState × RngState :=
  statePartySeniorityGo senators 50 sup amb

/-- `Generator.partyOfPortrait` from `static/app.js` (Easy; note the JS
comment on its `allowed_answer_modes`: "but we'll validate manually"). -/
def partyOfPortrait (senators : List Senator) (sup amb : RngState) :
    QResult × RngState × RngState :=
  let (sOpt, sup1) := pickRandom senators sup
  match sOpt with
  | none =>
    (.err (errorObject "data_missing".toList "No senator found.".toList none), sup1, amb)
  | some s =>
    let (qid, amb1) := makeId amb
    (.ok
      { id := qid
        template := "Which party does \x7bname\x7d belong to?".toList
        filled_variables := [("name".toList, officialName s)]
        difficulty := "Easy".toList
        correct_answers := [s.party]
        allowed_answer_modes := ["full_name".toList]
        qtype := "party_portrait".toList
        portrait_image := portraitUrl s.portrait }, sup1, amb1)

/-- `Generator.stateOfPortrait` from `static/app.js` (Easy). -/
def stateOfPortrait (senators : List Senator) (sup amb : RngState) :
    QResult × RngState × RngState :=
  let (sOpt, sup1) := pickRandom senators sup
  match sOpt with
  | none =>
    (.err (errorObject "data_missing".toList "No senator found.".toList none), sup1, amb)
  | some s =>
    let (qid, amb1) := makeId amb
    (.ok
      { id := qid
        template := "Which state does \x7bname\x7d represent?".toList
        filled_variables := [("name".toList, officialName s)]
        difficulty := "Easy".toList
        correct_answers := [s.state]
        allowed_answer_modes := ["full_name".toList]
        qtype := "state_portrait".toList
        portrait_image := portraitUrl s.portrait }, sup1, amb1)

/-- `Generator.partyOfRandom` from `static/app.js` (Hard).  The coin flip
`Math.random() < 0.5` draws from the ambient source, not the supplied one. -/
def partyOfRandom (difficulty : JStr) (senators : List Senator) (sup amb : RngState) :
    QResult × RngState × RngState :=
  let (sOpt, sup1) := pickRandom senators sup
  match sOpt with
  | none =>
    (.err (errorObject "data_missing".toList "No senator found.".toList none), sup1, amb)
  | some s =>
    let (c, amb1) := amb.draw
    let coin : Bool := c.ltHalf
    let (qid, amb2) := makeId amb1
    (.ok
      { id := qid
        template :=
          if coin then "Which party does this senator belong to?".toList
          else "Which party does \x7bname\x7d belong to?".toList
        filled_variables := if coin then [] else [("name".toList, officialName s)]
        difficulty := "Hard".toList
        correct_answers := [s.party]
        allowed_answer_modes := ["full_name".toList]
        qtype := if coin then "party_portrait_hard".toList else "party_text_hard".toList
        portrait_image := portraitUrl s.portrait }, sup1, amb2)

/-- `Generator.stateOfRandom` from `static/app.js` (Hard; same ambient coin). -/
def stateOfRandom (difficulty : JStr) (senators : List Senator) (sup amb : RngState) :
    QResult × RngState × RngState :=
  let (sOpt, sup1) := pickRandom senators sup
  match sOpt with
  | none =>
    (.err (errorObject "data_missing".toList "No senator found.".toList none), sup1, amb)
  | some s =>
    let (c, amb1) := amb.draw
    let coin : Bool := c.ltHalf
    let (qid, amb2) := makeId amb1
    (.ok
      { id := qid
        template :=
          if coin then "Which state does this senator represent?".toList
          else "Which state does \x7bname\x7d represent?".toList
        filled_variables := if coin then [] else [("name".toList, officialName s)]
        difficulty := "Hard".toList
        correct_answers := [s.state]
        allowed_answer_modes := ["full_name".toList]
        qtype := if coin then "state_portrait_hard".toList else "state_text_hard".toList
        portrait_image := portraitUrl s.portrait }, sup1, amb2)

/-- `Generator.tryTemplate` from `static/app.js`. -/
def tryTemplate (key difficulty : JStr) (senators : List Senator) (sup amb : RngState) :
    QResult × RngState × RngState :=
  if key = "portrait_only".toList then portraitOnly difficulty senators sup amb
  else if key = "state_any".toList then stateAny senators sup amb
  else if key = "state_party_any".toList then statePartyAny senators sup amb
  else if key = "state_seniority".toList then stateSeniority difficulty senators sup amb
  else if key = "state_party_seniority".toList then statePartySeniority senators sup amb
  else if key = "party_of_portrait".toList then partyOfPortrait senators sup amb
  else if key = "state_of_portrait".toList then stateOfPortrait senators sup amb
  else if key = "party_of_random".toList then partyOfRandom difficulty senators sup amb
  else if key = "state_of_random".toList then stateOfRandom difficulty senators sup amb
  else
    (.err (errorObject "unknown_template".toList "Unknown template key.".toList
      (some [("key".toList, key)])), sup, amb)

end Generator

/-- The `Templates` table from `static/app.js`, as the lists of template
keys per tier (the `type` field of each entry is never read by the
generator).  Indexing with any other string throws in JS; the model returns
`[]` and every theorem about `generateQuestion` restricts to the two tiers. -/
def Templates (difficulty : JStr) : List JStr :=
  if difficulty = "Easy".toList then
    ["state_any".toList, "state_party_any".toList, "state_seniority".toList,
     "party_of_portrait".toList, "state_of_portrait".toList]
  else if difficulty = "Hard".toList then
    ["portrait_only".toList, "state_seniority".toList, "state_party_seniority".toList,
     "party_of_random".toList, "state_of_random".toList]
  else []

namespace Generator

/-- The `for (const t of allowed)` loop of `generateQuestion`: try each
shuffled template in order, return the first non-error result, and fall
through to the typed `unsolvable_template` failure. -/
def genLoop (difficulty : JStr) (senators : List Senator) :
    List JStr → RngState → RngState → QResult × RngState × RngState
  | [], sup, amb =>
    (.err (errorObject "unsolvable_template".toList
      "No suitable template could be generated for the current dataset.".toList none),
      sup, amb)
  | k :: rest, sup, amb =>
    match tryTemplate k difficulty senators sup amb with
    | (.ok q, sup1, amb1) => (.ok q, sup1, amb1)
    | (.err _, sup1, amb1) => genLoop difficulty senators rest sup1 amb1

/-- `Generator.generateQuestion` from `static/app.js`: shuffle the tier's
template keys with the supplied source, then try them in order. -/
def generateQuestion (difficulty : JStr) (senators : List Senator)
    (sup amb : RngState) : QResult × RngState × RngState :=
  let (allowed, sup1) := shuffleInPlace (Templates difficulty) sup
  genLoop difficulty senators allowed sup1 amb

end Generator

/-- The live game state object built by `GameState.create`.  Timestamps are
the opaque ISO strings `new Date().toISOString()` returns; each mutating
operation takes the current timestamp as an explicit argument. -/
structure SessionState where
  difficulty : JStr
  questions : List Question
  current_index : Nat
  answers : List UserAnswer
  score : Nat
  start_time : JStr
  end_time : Option JStr
  completed : Bool
deriving DecidableEq, Repr

namespace GameState

/-- `GameState.create` from `static/app.js`. -/
def create (difficulty : JStr) (questions : List Question) (now : JStr) : SessionState :=
  { difficulty := difficulty
    questions := questions
    current_index := 0
    answers := []
    score := 0
    start_time := now
    end_time := none
    completed := false }

/-- `GameState.recordAnswer` from `static/app.js`: push the answer, bump the
score on a correct one, advance the cursor, and on reaching the question
count set `completed` and stamp `end_time`. -/
def recordAnswer (st : SessionState) (userAnswer : UserAnswer) (now : JStr) : SessionState :=
  let st1 :=
    { st with
      answers := st.answers ++ [userAnswer]
      score := st.score + (if userAnswer.is_correct then 1 else 0)
      current_index := st.current_index + 1 }
  if st1.questions.length ≤ st1.current_index then
    { st1 with completed := true, end_time := some now }
  else st1

/-- JS `Math.round` (round half toward positive infinity). -/
def jsRound (q : ℚ) : Int := ⌊q + 1 / 2⌋

/-- The summary record built by `GameState.toResults`.  The formatted
`time_taken` field is outside the model: it is derived by parsing the two
ISO timestamp strings, which are opaque here, and no claim mentions it. -/
structure Results where
  total_questions : Nat
  correct_answers : Nat
  incorrect_answers : Int
  score : Int
  answers_detail : List UserAnswer
deriving DecidableEq, Repr

/-- `GameState.toResults` from `static/app.js` (score is
`Math.round((correct / total) * 100)`; for `total = 0` the JS value is
`NaN`, modelled by rational division-by-zero as `0` — no completed session
has zero questions). -/
def toResults (st : SessionState) : Results :=
  let total := st.questions.length
  let correct := (st.answers.filter (fun a => a.is_correct)).length
  { total_questions := total
    correct_answers := correct
    incorrect_answers := (total : Int) - (correct : Int)
    score := jsRound (((correct : ℚ) / (total : ℚ)) * 100)
    answers_detail := st.answers }

/-- Replay a list of `(answer, timestamp)` submissions against a state. -/
def runAnswers (st : SessionState) (l : List (UserAnswer × JStr)) : SessionState :=
  l.foldl (fun s p => recordAnswer s p.1 p.2) st

end GameState

/-! ### Concrete values used by claim witnesses and counterexamples -/

/-- A question value used by the concrete witnesses below. -/
def sampleQuestion : Question :=
  { id := "q1".toList
    template := "Name a senator from \x7bstate\x7d.".toList
    filled_variables := [("state".toList, "Ohio".toList)]
    difficulty := "Easy".toList
    correct_answers := ["John Smith".toList]
    allowed_answer_modes := ["last_name".toList, "full_name".toList]
    qtype := "text".toList
    portrait_image := [] }

/-- A correct answer record used by the concrete witnesses below. -/
def sampleCorrect : UserAnswer :=
  { question_id := "q1".toList
    user_input := "John Smith".toList
    is_correct := true
    accepted_as := "full_name".toList
    feedback := "Correct.".toList }

/-- An incorrect answer record used by the concrete witnesses below. -/
def sampleWrong : UserAnswer :=
  { question_id := "q1".toList
    user_input := "nope".toList
    is_correct := false
    accepted_as := "full_name".toList
    feedback := "Not quite. Easy accepts last names and mild misspellings.".toList }

/-- The question of the spec's ambiguous-last-name example: Easy tier with
correct answers sharing the last name `Smith`. -/
def c1Question : Question :=
  { id := "q1".toList
    template := "Name a senator from \x7bstate\x7d.".toList
    filled_variables := [("state".toList, "Ohio".toList)]
    difficulty := "Easy".toList
    correct_answers := ["John Smith".toList, "Jane Smith".toList]
    allowed_answer_modes := ["last_name".toList, "full_name".toList]
    qtype := "text".toList
    portrait_image := [] }

/-- A Hard question used to witness C4. -/
def c4Question : Question :=
  { id := "q2".toList
    template := "Who is this senator?".toList
    filled_variables := [("portrait_image".toList, "assets/p.jpg".toList)]
    difficulty := "Hard".toList
    correct_answers := ["John Smith".toList]
    allowed_answer_modes := ["full_name".toList]
    qtype := "portrait".toList
    portrait_image := [] }

/-- A roster of one senator used in the C2 counterexample. -/
def c2Senator : Senator :=
  { name := "Jo Bloggs".toList
    state := "Xs".toList
    party := "Democrat".toList
    seniority := "Junior".toList
    portrait := "p.jpg".toList }

/-- The all-zero random source (`Math.random()` returning `0` forever). -/
def rngZero : RngState := ⟨fun _ => ⟨0, 1⟩, 0⟩

/-- The question `partyOfPortrait` produces from that roster with the
all-zero sources. -/
def c2Question : Question :=
  { id := "q_".toList
    template := "Which party does \x7bname\x7d belong to?".toList
    filled_variables := [("name".toList, "Jo Bloggs".toList)]
    difficulty := "Easy".toList
    correct_answers := ["Democrat".toList]
    allowed_answer_modes := ["full_name".toList]
    qtype := "party_portrait".toList
    portrait_image := "assets/p.jpg".toList }

/-- A two-senator roster (one state, both seniorities) witnessing C3. -/
def c3Roster : List Senator :=
  [{ name := "Ann Bee".toList, state := "Xs".toList, party := "Democrat".toList,
     seniority := "Senior".toList, portrait := [] },
   { name := "Cal Dee".toList, state := "Xs".toList, party := "Republican".toList,
     seniority := "Junior".toList, portrait := [] }]

/-- Agreement of two generator outcomes up to their ambient-randomness
dependent parts: identical errors, or questions with the same difficulty,
correct answers and allowed answer modes (the id and, for the coin-flip
templates, the presentation fields may differ). -/
def coreAgree : QResult → QResult → Prop
  | .ok q1, .ok q2 =>
    q1.difficulty = q2.difficulty ∧ q1.correct_answers = q2.correct_answers ∧
      q1.allowed_answer_modes = q2.allowed_answer_modes
  | .err e1, .err e2 => e1 = e2
  | _, _ => False

/-- A portrait-less senator used in the C6 counterexample (so that
`portrait_only` fails and the Hard shuffle reaches `party_of_random`). -/
def c6Senator : Senator :=
  { name := "Ann Bee".toList, state := "Xs".toList, party := "Democrat".toList,
    seniority := "Junior".toList, portrait := [] }

/-- A source always returning one half. -/
def rngHalf : RngState := ⟨fun _ => ⟨1, 2⟩, 0⟩

/-- A source always returning three quarters. -/
def rngThreeQuarters : RngState := ⟨fun _ => ⟨3, 4⟩, 0⟩


/-! ### Levenshtein: the code's DP table computes the textbook distance -/

theorem levSpec_nil_left (ys : JStr) : levSpec [] ys = ys.length := by
  cases ys <;> simp [levSpec]

theorem levSpec_nil_right (xs : JStr) : levSpec xs [] = xs.length := by
  cases xs <;> simp [levSpec]

theorem levSpec_cons_cons (x y : Char) (xs ys : JStr) :
    levSpec (x :: xs) (y :: ys) =
      min (levSpec xs (y :: ys) + 1)
        (min (levSpec (x :: xs) ys + 1)
          (levSpec xs ys + (if x = y then 0 else 1))) := by
  simp [levSpec]

/-- The textbook recursion can also peel the last characters: the key
symmetry behind proving the prefix-indexed DP table correct. -/
theorem levSpec_snoc (x y : Char) : (xs ys : JStr) →
    levSpec (xs ++ [x]) (ys ++ [y]) =
      min (levSpec xs (ys ++ [y]) + 1)
        (min (levSpec (xs ++ [x]) ys + 1)
          (levSpec xs ys + (if x = y then 0 else 1)))
  | [], [] => by simp [levSpec]
  | [], y' :: ys' => by
    have ih := levSpec_snoc x y [] ys'
    simp only [List.nil_append, List.cons_append] at ih ⊢
    simp only [levSpec_cons_cons]
    rw [ih]
    simp only [levSpec_nil_left, List.length_cons, List.length_append,
      List.length_singleton, List.length_nil]
    omega
  | x' :: xs', [] => by
    have ih := levSpec_snoc x y xs' []
    simp only [List.nil_append, List.cons_append] at ih ⊢
    simp only [levSpec_cons_cons]
    rw [ih]
    simp only [levSpec_nil_right, List.length_cons, List.length_append,
      List.length_singleton, List.length_nil]
    omega
  | x' :: xs', y' :: ys' => by
    have ih1 := levSpec_snoc x y xs' (y' :: ys')
    have ih2 := levSpec_snoc x y (x' :: xs') ys'
    have ih3 := levSpec_snoc x y xs' ys'
    simp only [List.cons_append] at ih1 ih2 ih3 ⊢
    simp only [levSpec_cons_cons]
    rw [ih1, ih2, ih3]
    generalize levSpec xs' (y' :: (ys' ++ [y])) = P
    generalize levSpec (x' :: xs') (ys' ++ [y]) = S
    generalize levSpec (xs' ++ [x]) (y' :: ys') = Q
    generalize levSpec (x' :: (xs' ++ [x])) ys' = T
    generalize levSpec xs' (y' :: ys') = R
    generalize levSpec (x' :: xs') ys' = U
    generalize levSpec xs' (ys' ++ [y]) = V
    generalize levSpec (xs' ++ [x]) ys' = W
    generalize levSpec xs' ys' = X
    generalize (if x = y then (0 : Nat) else 1) = c1
    generalize (if x' = y' then (0 : Nat) else 1) = c2
    apply le_antisymm <;> simp only [le_min_iff, min_le_iff] <;> omega
termination_by xs ys => xs.length + ys.length
decreasing_by all_goals simp_arith

/-- The textbook distance is invariant under reversing both strings. -/
theorem levSpec_reverse : (xs ys : JStr) →
    levSpec xs.reverse ys.reverse = levSpec xs ys
  | [], ys => by simp [levSpec_nil_left]
  | x :: xs', [] => by simp [levSpec_nil_right]
  | x :: xs', y :: ys' => by
    have ih1 := levSpec_reverse xs' (y :: ys')
    have ih2 := levSpec_reverse (x :: xs') ys'
    have ih3 := levSpec_reverse xs' ys'
    simp only [List.reverse_cons] at ih1 ih2 ih3 ⊢
    rw [levSpec_snoc, ih1, ih2, ih3, levSpec_cons_cons]
termination_by xs ys => xs.length + ys.length
decreasing_by all_goals simp_arith

theorem dpLev_zero (a b : JStr) (j : Nat) : dpLev a b 0 j = j := rfl

theorem dpLev_succ_zero (a b : JStr) (i : Nat) : dpLev a b (i + 1) 0 = i + 1 := rfl

theorem dpLev_succ_succ (a b : JStr) (i j : Nat) :
    dpLev a b (i + 1) (j + 1) =
      min (dpLev a b i (j + 1) + 1)
        (min (dpLev a b (i + 1) j + 1)
          (dpLev a b i j + (if a.getD i ' ' = b.getD j ' ' then 0 else 1))) := rfl

/-- Correctness of the DP table: entry `(i, j)` is the textbook distance
between the reversed `i`- and `j`-prefixes. -/
theorem dpLev_eq_levSpec (a b : JStr) : (i j : Nat) → i ≤ a.length → j ≤ b.length →
    dpLev a b i j = levSpec ((a.take i).reverse) ((b.take j).reverse)
  | 0, j, _, hj => by
    simp [dpLev_zero, levSpec_nil_left, Nat.min_eq_left hj]
  | i + 1, 0, hi, _ => by
    simp [dpLev_succ_zero, levSpec_nil_right, Nat.min_eq_left hi]
  | i + 1, j + 1, hi, hj => by
    have hia : i < a.length := hi
    have hjb : j < b.length := hj
    have ih1 := dpLev_eq_levSpec a b i (j + 1) (Nat.le_of_lt hia) hj
    have ih2 := dpLev_eq_levSpec a b (i + 1) j hi (Nat.le_of_lt hjb)
    have ih3 := dpLev_eq_levSpec a b i j (Nat.le_of_lt hia) (Nat.le_of_lt hjb)
    rw [dpLev_succ_succ, ih1, ih2, ih3]
    rw [List.take_succ, List.take_succ, List.getElem?_eq_getElem hia,
      List.getElem?_eq_getElem hjb]
    simp only [Option.toList_some, List.reverse_append, List.reverse_cons,
      List.reverse_nil, List.nil_append, List.singleton_append]
    rw [levSpec_cons_cons, List.getD_eq_getElem a ' ' hia, List.getD_eq_getElem b ' ' hjb]

/-- The code's `levenshtein` is the textbook distance of the normalized
strings. -/
theorem levenshtein_eq_levSpec (a b : JStr) :
    levenshtein a b = levSpec (normalizeName a) (normalizeName b) := by
  show dpLev (normalizeName a) (normalizeName b) (normalizeName a).length
      (normalizeName b).length = _
  rw [dpLev_eq_levSpec _ _ _ _ (Nat.le_refl _) (Nat.le_refl _),
    List.take_length, List.take_length, levSpec_reverse]

end SenatorQuiz

theorem defaultCost_nil_right (xs : SenatorQuiz.JStr) :
    levenshtein Levenshtein.defaultCost xs [] = xs.length := by
  induction xs with
  | nil => simp
  | cons x xs ih => simp [ih, Nat.add_comm]

theorem defaultCost_nil_left (ys : SenatorQuiz.JStr) :
    levenshtein Levenshtein.defaultCost [] ys = ys.length := by
  induction ys with
  | nil => simp
  | cons y ys ih => simp [ih, Nat.add_comm]

/-- The textbook recursion agrees with Mathlib's Levenshtein distance at
the all-unit cost structure. -/
theorem levSpec_eq_defaultCost : (xs ys : SenatorQuiz.JStr) →
    SenatorQuiz.levSpec xs ys = levenshtein Levenshtein.defaultCost xs ys
  | [], ys => by rw [SenatorQuiz.levSpec_nil_left, defaultCost_nil_left]
  | x :: xs', [] => by rw [SenatorQuiz.levSpec_nil_right, defaultCost_nil_right]
  | x :: xs', y :: ys' => by
    have ih1 := levSpec_eq_defaultCost xs' (y :: ys')
    have ih2 := levSpec_eq_defaultCost (x :: xs') ys'
    have ih3 := levSpec_eq_defaultCost xs' ys'
    rw [SenatorQuiz.levSpec_cons_cons, ih1, ih2, ih3, levenshtein_cons_cons]
    simp only [Levenshtein.defaultCost_delete, Levenshtein.defaultCost_insert,
      Levenshtein.defaultCost_substitute]
    omega
termination_by xs ys => xs.length + ys.length
decreasing_by all_goals simp_arith

namespace SenatorQuiz

/-! ### normalizeName is idempotent -/

theorem toLower_eq_self_of_kept {c : Char} (h : isKeptChar c = true) :
    Char.toLower c = c := by
  simp only [isKeptChar, isJsSpace, Bool.or_eq_true, Bool.and_eq_true,
    decide_eq_true_eq] at h
  simp only [Char.toLower]
  rw [if_neg (by omega)]

theorem not_mark_of_kept {c : Char} (h : isKeptChar c = true) :
    isCombiningMark c = false := by
  simp only [isKeptChar, isJsSpace, Bool.or_eq_true, Bool.and_eq_true,
    decide_eq_true_eq] at h
  simp only [isCombiningMark, Bool.and_eq_false_iff, decide_eq_false_iff_not]
  omega

/-- Every character of the collapsed string is either the space the
collapse inserted or a non-whitespace character of the input. -/
theorem collapse_mem : (l : JStr) → ∀ c ∈ collapseSpaces l,
    c = ' ' ∨ (c ∈ l ∧ isJsSpace c = false)
  | [] => by simp [collapseSpaces]
  | [d] => by
    by_cases hd : isJsSpace d = true <;>
      simp [collapseSpaces, hd]
  | c :: d :: rest => by
    intro a ha
    have ih := collapse_mem (d :: rest)
    by_cases hc : isJsSpace c = true
    · by_cases hd : isJsSpace d = true
      · simp only [collapseSpaces, hc, hd, if_pos] at ha
        rcases ih a ha with h | ⟨hm, hs⟩
        · exact Or.inl h
        · exact Or.inr ⟨List.mem_cons_of_mem _ hm, hs⟩
      · simp only [collapseSpaces, hc, hd, if_pos, if_neg, Bool.false_eq_true,
          not_false_iff] at ha
        rcases List.mem_cons.mp ha with h | h
        · exact Or.inl h
        · rcases ih a h with h' | ⟨hm, hs⟩
          · exact Or.inl h'
          · exact Or.inr ⟨List.mem_cons_of_mem _ hm, hs⟩
    · simp only [collapseSpaces, hc, Bool.false_eq_true, not_false_iff, if_neg] at ha
      rcases List.mem_cons.mp ha with h | h
      · subst h
        exact Or.inr ⟨List.mem_cons_self _ _, Bool.eq_false_iff.mpr hc⟩
      · rcases ih a h with h' | ⟨hm, hs⟩
        · exact Or.inl h'
        · exact Or.inr ⟨List.mem_cons_of_mem _ hm, hs⟩

/-- The collapsed string of a nonempty input starts with its first
character, turned into a space if it was whitespace. -/
theorem collapse_head : (d : Char) → (rest : JStr) → ∃ t,
    collapseSpaces (d :: rest) = (if isJsSpace d = true then ' ' else d) :: t
  | d, [] => by
    by_cases hd : isJsSpace d = true <;> simp [collapseSpaces, hd]
  | d, d' :: rest' => by
    by_cases hd : isJsSpace d = true
    · by_cases hd' : isJsSpace d' = true
      · obtain ⟨t, ht⟩ := collapse_head d' rest'
        refine ⟨t, ?_⟩
        simp only [collapseSpaces, hd, hd', if_pos, ht]
      · exact ⟨collapseSpaces (d' :: rest'), by
          simp [collapseSpaces, hd, hd']⟩
    · exact ⟨collapseSpaces (d' :: rest'), by
        simp [collapseSpaces, hd]⟩

/-- No two adjacent characters of a collapsed string are both whitespace. -/
theorem collapse_chain : (l : JStr) →
    List.Chain' (fun a b => ¬(isJsSpace a = true ∧ isJsSpace b = true)) (collapseSpaces l)
  | [] => by simp [collapseSpaces]
  | [d] => by
    by_cases hd : isJsSpace d = true <;> simp [collapseSpaces, hd]
  | c :: d :: rest => by
    have ih := collapse_chain (d :: rest)
    obtain ⟨t, ht⟩ := collapse_head d rest
    by_cases hc : isJsSpace c = true
    · by_cases hd : isJsSpace d = true
      · simpa only [collapseSpaces, hc, hd, if_pos] using ih
      · simp only [collapseSpaces, hc, hd, if_pos, Bool.false_eq_true, not_false_iff,
          if_neg]
        rw [List.chain'_cons']
        refine ⟨?_, ih⟩
        intro y hy
        rw [ht] at hy
        simp only [if_neg (by simp [hd] : ¬isJsSpace d = true), List.head?_cons,
          Option.mem_def, Option.some.injEq] at hy
        subst hy
        simp [hd]
    · simp only [collapseSpaces, hc, Bool.false_eq_true, not_false_iff, if_neg]
      rw [List.chain'_cons']
      refine ⟨?_, ih⟩
      intro y hy
      simp [hc]

/-- A string whose whitespace is only single interior spaces collapses to
itself. -/
theorem collapse_eq_self : (l : JStr) →
    (∀ c ∈ l, isJsSpace c = true → c = ' ') →
    List.Chain' (fun a b => ¬(isJsSpace a = true ∧ isJsSpace b = true)) l →
    collapseSpaces l = l
  | [], _, _ => rfl
  | [d], hmem, _ => by
    by_cases hd : isJsSpace d = true
    · have hd' := hmem d (List.mem_singleton_self d) hd
      simp [collapseSpaces, hd, hd']
    · simp [collapseSpaces, hd]
  | c :: d :: rest, hmem, hchain => by
    have hch := List.chain'_cons'.mp hchain
    have ihtail := collapse_eq_self (d :: rest)
      (fun a ha hs => hmem a (List.mem_cons_of_mem _ ha) hs) hch.2
    by_cases hc : isJsSpace c = true
    · have hd : isJsSpace d = false := by
        have hr := hch.1 d (by simp)
        rcases Bool.eq_false_or_eq_true (isJsSpace d) with h | h
        · exact absurd ⟨hc, h⟩ hr
        · exact h
      simp only [collapseSpaces, hc, hd, if_pos, Bool.false_eq_true, not_false_iff,
        if_neg, ihtail]
      rw [hmem c (List.mem_cons_self _ _) hc]
    · simp only [collapseSpaces, hc, Bool.false_eq_true, not_false_iff, if_neg, ihtail]

theorem dropWhile_eq_self_of_head {p : α → Bool} : (l : List α) →
    (∀ c ∈ l.head?, p c = false) → l.dropWhile p = l
  | [], _ => rfl
  | a :: l, h => by
    have := h a (by simp)
    simp [List.dropWhile_cons, this]

theorem dropWhile_head_not {p : α → Bool} : (l : List α) →
    ∀ c ∈ (l.dropWhile p).head?, p c = false
  | [] => by simp
  | a :: l => by
    by_cases ha : p a = true
    · simpa [List.dropWhile_cons, ha] using dropWhile_head_not (p := p) l
    · simp only [Bool.not_eq_true] at ha
      simp [List.dropWhile_cons, ha]

theorem jsTrim_sub (l : JStr) : jsTrim l <:+: l := by
  have h1 : l.dropWhile isJsSpace <:+ l := List.dropWhile_suffix _
  have h2 : (l.dropWhile isJsSpace).reverse.dropWhile isJsSpace <:+
      (l.dropWhile isJsSpace).reverse := List.dropWhile_suffix _
  have h3 : jsTrim l <+: l.dropWhile isJsSpace := by
    rw [← List.reverse_suffix]
    simpa [jsTrim] using h2
  exact h3.isInfix.trans h1.isInfix

theorem jsTrim_head_not_space (l : JStr) :
    ∀ c ∈ (jsTrim l).head?, isJsSpace c = false := by
  intro c hc
  unfold jsTrim at hc
  rw [List.head?_reverse] at hc
  set t := (l.dropWhile isJsSpace).reverse.dropWhile isJsSpace with ht
  have hsuf : t <:+ (l.dropWhile isJsSpace).reverse := List.dropWhile_suffix _
  obtain ⟨pre, hpre⟩ := hsuf
  have htne : t ≠ [] := by
    intro h
    rw [h] at hc
    simp at hc
  have : t.getLast? = ((l.dropWhile isJsSpace).reverse).getLast? := by
    rw [← hpre]
    exact (List.getLast?_append_of_ne_nil pre htne).symm
  rw [this, List.getLast?_reverse] at hc
  exact dropWhile_head_not l c hc

theorem jsTrim_last_not_space (l : JStr) :
    ∀ c ∈ (jsTrim l).getLast?, isJsSpace c = false := by
  intro c hc
  unfold jsTrim at hc
  rw [List.getLast?_reverse] at hc
  exact dropWhile_head_not _ c hc

/-- Characters of a normalized string: always in the kept class, and any
whitespace is exactly the single space character. -/
theorem normalizeName_mem (s : JStr) : ∀ c ∈ normalizeName s,
    isKeptChar c = true ∧ (isJsSpace c = true → c = ' ') := by
  intro c hc
  unfold normalizeName at hc
  have hc' := (jsTrim_sub _).subset hc
  rcases collapse_mem _ c hc' with h | ⟨hm, hs⟩
  · subst h
    exact ⟨by decide, fun _ => rfl⟩
  · have := (List.mem_filter.mp hm).2
    exact ⟨this, fun hsp => absurd hsp (by simp [hs])⟩

theorem normalizeName_chain (s : JStr) :
    List.Chain' (fun a b => ¬(isJsSpace a = true ∧ isJsSpace b = true))
      (normalizeName s) :=
  List.Chain'.infix (collapse_chain _) (jsTrim_sub _)

/-- `normalizeName` is idempotent (§8 of the spec, and the reason grading
may freely re-normalize already-normalized strings). -/
theorem normalizeName_idem (s : JStr) :
    normalizeName (normalizeName s) = normalizeName s := by
  have hmem := normalizeName_mem s
  have hmap : (normalizeName s).map Char.toLower = normalizeName s := by
    rw [show (normalizeName s).map Char.toLower =
        (normalizeName s).map id from
      List.map_congr_left (fun a ha => toLower_eq_self_of_kept (hmem a ha).1)]
    exact List.map_id _
  have hfil1 : (normalizeName s).filter (fun c => !isCombiningMark c) =
      normalizeName s :=
    List.filter_eq_self.mpr (fun a ha => by
      simp [not_mark_of_kept (hmem a ha).1])
  have hfil2 : (normalizeName s).filter isKeptChar = normalizeName s :=
    List.filter_eq_self.mpr (fun a ha => (hmem a ha).1)
  have hcol : collapseSpaces (normalizeName s) = normalizeName s :=
    collapse_eq_self _ (fun c hc => (hmem c hc).2) (normalizeName_chain s)
  have hhead : ∀ c ∈ (normalizeName s).head?, isJsSpace c = false := by
    intro c hc
    unfold normalizeName at hc
    exact jsTrim_head_not_space _ c hc
  have hlast : ∀ c ∈ (normalizeName s).getLast?, isJsSpace c = false := by
    intro c hc
    unfold normalizeName at hc
    exact jsTrim_last_not_space _ c hc
  have htrim : jsTrim (normalizeName s) = normalizeName s := by
    unfold jsTrim
    rw [dropWhile_eq_self_of_head _ hhead]
    rw [dropWhile_eq_self_of_head _ (by
      intro c hc
      rw [List.head?_reverse] at hc
      exact hlast c hc)]
    exact List.reverse_reverse _
  show jsTrim (collapseSpaces ((((normalizeName s).map Char.toLower).filter
    (fun c => !isCombiningMark c)).filter isKeptChar)) = normalizeName s
  rw [hmap, hfil1, hfil2, hcol, htrim]

/-! ### Session state lemmas -/

theorem recordAnswer_fields (st : SessionState) (ua : UserAnswer) (now : JStr) :
    (GameState.recordAnswer st ua now).answers = st.answers ++ [ua] ∧
    (GameState.recordAnswer st ua now).score =
      st.score + (if ua.is_correct then 1 else 0) ∧
    (GameState.recordAnswer st ua now).current_index = st.current_index + 1 ∧
    (GameState.recordAnswer st ua now).questions = st.questions := by
  unfold GameState.recordAnswer
  by_cases h : st.questions.length ≤ st.current_index + 1 <;> simp [h]

theorem runAnswers_fields : (l : List (UserAnswer × JStr)) → ∀ st : SessionState,
    (GameState.runAnswers st l).answers = st.answers ++ l.map Prod.fst ∧
    (GameState.runAnswers st l).score =
      st.score + ((l.map Prod.fst).filter (fun a => a.is_correct)).length ∧
    (GameState.runAnswers st l).current_index = st.current_index + l.length ∧
    (GameState.runAnswers st l).questions = st.questions
  | [], st => by simp [GameState.runAnswers]
  | p :: rest, st => by
    have hrec := recordAnswer_fields st p.1 p.2
    have ih := runAnswers_fields rest (GameState.recordAnswer st p.1 p.2)
    have hrun : GameState.runAnswers st (p :: rest) =
        GameState.runAnswers (GameState.recordAnswer st p.1 p.2) rest := rfl
    rw [hrun]
    obtain ⟨ha, hs, hi, hq⟩ := ih
    obtain ⟨ha', hs', hi', hq'⟩ := hrec
    refine ⟨?_, ?_, ?_, ?_⟩
    · rw [ha, ha']
      simp
    · rw [hs, hs']
      simp only [List.map_cons, List.filter_cons]
      by_cases hcorr : p.1.is_correct = true <;> simp [hcorr] <;> omega
    · rw [hi, hi']
      simp [List.length_cons]
      omega
    · rw [hq, hq']

theorem runAnswers_snoc (st : SessionState) (l : List (UserAnswer × JStr))
    (p : UserAnswer × JStr) :
    GameState.runAnswers st (l ++ [p]) =
      GameState.recordAnswer (GameState.runAnswers st l) p.1 p.2 := by
  simp [GameState.runAnswers, List.foldl_append]

/-- Completion behaviour of a replayed session: the flag and the end
timestamp appear exactly at the final (`N`-th) recording. -/
theorem runAnswers_completion (d : JStr) (qs : List Question) (t0 : JStr) :
    (l : List (UserAnswer × JStr)) → l.length ≤ qs.length →
    ((GameState.runAnswers (GameState.create d qs t0) l).completed = true ↔
      (0 < l.length ∧ l.length = qs.length)) ∧
    (GameState.runAnswers (GameState.create d qs t0) l).end_time =
      (if 0 < l.length ∧ l.length = qs.length then l.getLast?.map Prod.snd else none) ∧
    (GameState.runAnswers (GameState.create d qs t0) l).current_index = l.length := by
  intro l
  induction l using List.reverseRecOn with
  | nil =>
    intro _
    simp [GameState.runAnswers, GameState.create]
  | append_singleton l p ih =>
    intro hlen
    rw [List.length_append, List.length_singleton] at hlen
    have hlt : l.length < qs.length := by omega
    obtain ⟨ihc, ihe, ihi⟩ := ih (by omega)
    have hnc : (GameState.runAnswers (GameState.create d qs t0) l).completed = false := by
      rcases Bool.eq_false_or_eq_true
        ((GameState.runAnswers (GameState.create d qs t0) l).completed) with h | h
      · exact absurd (ihc.mp h) (by omega)
      · exact h
    have hne : (GameState.runAnswers (GameState.create d qs t0) l).end_time = none := by
      rw [ihe, if_neg (by omega)]
    have hq : (GameState.runAnswers (GameState.create d qs t0) l).questions = qs :=
      (runAnswers_fields l _).2.2.2
    rw [runAnswers_snoc]
    unfold GameState.recordAnswer
    by_cases hfull : l.length + 1 = qs.length
    · rw [if_pos (by simp [hq, ihi]; omega)]
      simp only [List.length_append, List.length_singleton, List.getLast?_concat]
      refine ⟨by constructor <;> intro <;> simp [hfull] <;> omega, ?_, by simp [ihi]⟩
      rw [if_pos (by omega)]
      rfl
    · rw [if_neg (by simp [hq, ihi]; omega)]
      simp only [List.length_append, List.length_singleton]
      refine ⟨?_, ?_, by simp [ihi]⟩
      · simp only [hnc, Bool.false_eq_true, false_iff]
        omega
      · rw [hne, if_neg (by omega)]

theorem jsRound_hundred : GameState.jsRound 100 = 100 := by
  unfold GameState.jsRound
  rw [Int.floor_eq_iff]
  norm_num

theorem jsRound_zero : GameState.jsRound 0 = 0 := by
  unfold GameState.jsRound
  rw [Int.floor_eq_iff]
  norm_num

/-! ### Claim theorems: session state -/

/-- C8: recording answers sets the completed flag exactly when the cursor
reaches the question count — that is, on recording the final answer of an
`N`-question session — never before, and stamps the end timestamp exactly
once, with the timestamp of that final recording. -/
theorem c8_completion_at_final_answer (d : JStr) (qs : List Question) (t0 : JStr)
    (l : List (UserAnswer × JStr)) (h : l.length ≤ qs.length) :
    ((GameState.runAnswers (GameState.create d qs t0) l).completed = true ↔
      (0 < l.length ∧ l.length = qs.length)) ∧
    (GameState.runAnswers (GameState.create d qs t0) l).end_time =
      (if 0 < l.length ∧ l.length = qs.length then l.getLast?.map Prod.snd else none) ∧
    (GameState.runAnswers (GameState.create d qs t0) l).current_index = l.length :=
  runAnswers_completion d qs t0 l h

theorem c8_completion_at_final_answer_witness :
    ([(sampleCorrect, "t1".toList)].length ≤ [sampleQuestion].length) ∧
    (((GameState.runAnswers
        (GameState.create "Easy".toList [sampleQuestion] "t0".toList)
        [(sampleCorrect, "t1".toList)]).completed = true ↔
      (0 < [(sampleCorrect, "t1".toList)].length ∧
        [(sampleCorrect, "t1".toList)].length = [sampleQuestion].length)) ∧
    (GameState.runAnswers (GameState.create "Easy".toList [sampleQuestion] "t0".toList)
        [(sampleCorrect, "t1".toList)]).end_time =
      (if 0 < [(sampleCorrect, "t1".toList)].length ∧
          [(sampleCorrect, "t1".toList)].length = [sampleQuestion].length
        then [(sampleCorrect, "t1".toList)].getLast?.map Prod.snd else none) ∧
    (GameState.runAnswers (GameState.create "Easy".toList [sampleQuestion] "t0".toList)
        [(sampleCorrect, "t1".toList)]).current_index =
      [(sampleCorrect, "t1".toList)].length) :=
  ⟨by decide,
    c8_completion_at_final_answer "Easy".toList [sampleQuestion] "t0".toList
      [(sampleCorrect, "t1".toList)] (by decide)⟩

/-- C9: the summary score is the rounded percentage of correct answers;
an all-correct completed session of any size scores 100 and an
all-incorrect one scores 0. -/
theorem c9_percentage_score (d : JStr) (qs : List Question) (t0 : JStr)
    (l : List (UserAnswer × JStr)) (h1 : 0 < l.length) (h2 : l.length = qs.length) :
    ((∀ p ∈ l, p.1.is_correct = true) →
      (GameState.toResults (GameState.runAnswers (GameState.create d qs t0) l)).score
        = 100) ∧
    ((∀ p ∈ l, p.1.is_correct = false) →
      (GameState.toResults (GameState.runAnswers (GameState.create d qs t0) l)).score
        = 0) := by
  obtain ⟨ha, _, _, hq⟩ := runAnswers_fields l (GameState.create d qs t0)
  rw [show (GameState.create d qs t0).answers = [] from rfl, List.nil_append] at ha
  constructor
  · intro hall
    unfold GameState.toResults
    rw [hq, ha]
    have hfil : ((l.map Prod.fst).filter (fun a => a.is_correct)) = l.map Prod.fst :=
      List.filter_eq_self.mpr (by
        intro a hm
        obtain ⟨p, hp, rfl⟩ := List.mem_map.mp hm
        exact hall p hp)
    show GameState.jsRound _ = 100
    rw [hfil, List.length_map]
    have hnz : ((l.length : ℚ)) ≠ 0 := by
      exact_mod_cast Nat.pos_iff_ne_zero.mp h1
    rw [show (GameState.create d qs t0).questions.length = qs.length from rfl, ← h2]
    rw [div_self hnz, one_mul]
    exact jsRound_hundred
  · intro hall
    unfold GameState.toResults
    rw [hq, ha]
    have hfil : ((l.map Prod.fst).filter (fun a => a.is_correct)) = [] := by
      rw [List.filter_eq_nil_iff]
      intro a hm
      obtain ⟨p, hp, rfl⟩ := List.mem_map.mp hm
      simp [hall p hp]
    show GameState.jsRound _ = 0
    rw [hfil]
    simp only [List.length_nil, Nat.cast_zero, zero_div, zero_mul]
    exact jsRound_zero

theorem c9_percentage_score_witness :
    (0 < [(sampleCorrect, "t1".toList)].length) ∧
    ([(sampleCorrect, "t1".toList)].length = [sampleQuestion].length) ∧
    (((∀ p ∈ [(sampleCorrect, "t1".toList)], p.1.is_correct = true) →
      (GameState.toResults (GameState.runAnswers
        (GameState.create "Easy".toList [sampleQuestion] "t0".toList)
        [(sampleCorrect, "t1".toList)])).score = 100) ∧
    ((∀ p ∈ [(sampleCorrect, "t1".toList)], p.1.is_correct = false) →
      (GameState.toResults (GameState.runAnswers
        (GameState.create "Easy".toList [sampleQuestion] "t0".toList)
        [(sampleCorrect, "t1".toList)])).score = 0)) :=
  ⟨by decide, by decide,
    c9_percentage_score "Easy".toList [sampleQuestion] "t0".toList
      [(sampleCorrect, "t1".toList)] (by decide) (by decide)⟩

/-- C10: in every state reachable from `create` by `recordAnswer` calls,
the running score equals the number of recorded correct answers, the
answers list is exactly the recorded sequence (each call appends one
record), and the correct count `toResults` recomputes agrees with the
score field. -/
theorem c10_running_score_invariant :
    (∀ (d : JStr) (qs : List Question) (t0 : JStr) (l : List (UserAnswer × JStr)),
      (GameState.runAnswers (GameState.create d qs t0) l).score =
        (((GameState.runAnswers (GameState.create d qs t0) l).answers).filter
          (fun a => a.is_correct)).length ∧
      (GameState.runAnswers (GameState.create d qs t0) l).answers = l.map Prod.fst ∧
      (GameState.toResults (GameState.runAnswers (GameState.create d qs t0) l)).correct_answers
        = (GameState.runAnswers (GameState.create d qs t0) l).score) ∧
    (∀ (st : SessionState) (ua : UserAnswer) (now : JStr),
      (GameState.recordAnswer st ua now).answers = st.answers ++ [ua]) := by
  constructor
  · intro d qs t0 l
    obtain ⟨ha, hs, _, _⟩ := runAnswers_fields l (GameState.create d qs t0)
    rw [show (GameState.create d qs t0).answers = [] from rfl, List.nil_append] at ha
    rw [show (GameState.create d qs t0).score = 0 from rfl, Nat.zero_add] at hs
    have hans : (GameState.runAnswers (GameState.create d qs t0) l).answers =
        l.map Prod.fst := ha
    have hscore : (GameState.runAnswers (GameState.create d qs t0) l).score =
        ((l.map Prod.fst).filter (fun a => a.is_correct)).length := hs
    refine ⟨?_, hans, ?_⟩
    · rw [hscore, hans]
    · unfold GameState.toResults
      rw [hscore, hans]
  · intro st ua now
    exact (recordAnswer_fields st ua now).1

/-! ### Claim theorems: validator -/

/-- C1 (code bug): on the spec's own example — correct answers
`["John Smith", "Jane Smith"]`, input `"smith"` — the code as written does
not reject the ambiguous last name: the fuzzy last-name loop precedes the
ambiguity check in the statement order (the shipped file even has an
unmatched closing brace between them, a syntax error), and distance zero
always passes it, so the input is accepted through the
`misspelling_correction` channel and the ambiguity branch is dead code. -/
theorem c1_ambiguous_last_name_accepted_by_code :
    (Validator.validateAnswer c1Question "smith".toList).is_correct = true ∧
    (Validator.validateAnswer c1Question "smith".toList).accepted_as =
      "misspelling_correction".toList ∧
    1 < (c1Question.correct_answers.filter
      (fun a => lastNameOf a = lastNameOf (normalizeName "smith".toList))).length := by
  refine ⟨?_, ?_, ?_⟩ <;> decide

/-- C4: Hard-mode grading is exact-match only — the verdict is correct
exactly when the normalized input is one of the normalized correct
answers; in particular every listed correct answer, submitted verbatim, is
accepted. -/
theorem c4_hard_exact_match_only (q : Question) (input : JStr)
    (hq : q.difficulty = "Hard".toList) :
    ((Validator.validateAnswer q input).is_correct = true ↔
      normalizeName input ∈ q.correct_answers.map normalizeName) ∧
    (∀ a ∈ q.correct_answers, (Validator.validateAnswer q a).is_correct = true) := by
  constructor
  · simp [Validator.validateAnswer, hq]
  · intro a ha
    simp [Validator.validateAnswer, hq]
    exact ⟨a, ha, rfl⟩

theorem c4_hard_exact_match_only_witness :
    c4Question.difficulty = "Hard".toList ∧
    (((Validator.validateAnswer c4Question "smith".toList).is_correct = true ↔
      normalizeName "smith".toList ∈ c4Question.correct_answers.map normalizeName) ∧
    (∀ a ∈ c4Question.correct_answers,
      (Validator.validateAnswer c4Question a).is_correct = true)) :=
  ⟨by decide, c4_hard_exact_match_only c4Question "smith".toList (by decide)⟩

/-- C2 counterexample: `partyOfPortrait` emits a question whose
`allowed_answer_modes` is exactly `["full_name"]`, yet `validateAnswer`
accepts the misspelt input `"democrt"`, whose normalized form equals no
normalized correct answer — the validator grades by difficulty alone and
never reads the permission set. -/
theorem c2_full_name_modes_not_enforced :
    (Generator.partyOfPortrait [c2Senator] rngZero rngZero).1 = .ok c2Question ∧
    c2Question.allowed_answer_modes = ["full_name".toList] ∧
    c2Question.difficulty = "Easy".toList ∧
    (Validator.validateAnswer c2Question "democrt".toList).is_correct = true ∧
    normalizeName "democrt".toList ∉ c2Question.correct_answers.map normalizeName := by
  refine ⟨?_, ?_, ?_, ?_, ?_⟩ <;> decide

/-- C2 amended: the verdict of `validateAnswer` does not depend on the
question's `allowed_answer_modes` field at all (grading is derived from
the difficulty alone), and the party/state-of-portrait fillers do set
difficulty `Easy` with modes `["full_name"]` — so their questions still
receive Easy-mode last-name and fuzzy acceptance. -/
theorem c2_modes_ignored_by_validator :
    (∀ (q : Question) (modes : List JStr) (input : JStr),
      Validator.validateAnswer { q with allowed_answer_modes := modes } input =
        Validator.validateAnswer q input) ∧
    (∀ senators sup amb q sup' amb',
      Generator.partyOfPortrait senators sup amb = (.ok q, sup', amb') →
      q.difficulty = "Easy".toList ∧ q.allowed_answer_modes = ["full_name".toList]) ∧
    (∀ senators sup amb q sup' amb',
      Generator.stateOfPortrait senators sup amb = (.ok q, sup', amb') →
      q.difficulty = "Easy".toList ∧ q.allowed_answer_modes = ["full_name".toList]) := by
  refine ⟨fun q modes input => rfl, ?_, ?_⟩
  · intro senators sup amb q sup' amb' h
    unfold Generator.partyOfPortrait at h
    rcases hp : pickRandom senators sup with ⟨sOpt, sup1⟩
    rw [hp] at h
    cases sOpt with
    | none => simp at h
    | some s =>
      simp only [Prod.mk.injEq, QResult.ok.injEq] at h
      obtain ⟨hq, -, -⟩ := h
      rw [← hq]
      exact ⟨rfl, rfl⟩
  · intro senators sup amb q sup' amb' h
    unfold Generator.stateOfPortrait at h
    rcases hp : pickRandom senators sup with ⟨sOpt, sup1⟩
    rw [hp] at h
    cases sOpt with
    | none => simp at h
    | some s =>
      simp only [Prod.mk.injEq, QResult.ok.injEq] at h
      obtain ⟨hq, -, -⟩ := h
      rw [← hq]
      exact ⟨rfl, rfl⟩

theorem c2_modes_ignored_by_validator_witness :
    Generator.partyOfPortrait [c2Senator] rngZero rngZero =
      (.ok c2Question, ⟨fun _ => ⟨0, 1⟩, 1⟩, ⟨fun _ => ⟨0, 1⟩, 1⟩) ∧
    (c2Question.difficulty = "Easy".toList ∧
      c2Question.allowed_answer_modes = ["full_name".toList]) :=
  ⟨rfl, c2_modes_ignored_by_validator.2.1 [c2Senator] rngZero rngZero c2Question
    ⟨fun _ => ⟨0, 1⟩, 1⟩ ⟨fun _ => ⟨0, 1⟩, 1⟩ rfl⟩

/-! ### Generator lemmas -/

/-- A valid source and a nonempty array make `pickRandom` return an
element of the array and advance the source by one draw. -/
theorem pickRandom_mem {α : Type} {arr : List α} {r : RngState}
    (hr : r.valid) (hne : arr ≠ []) :
    ∃ a ∈ arr, pickRandom arr r = (some a, { r with idx := r.idx + 1 }) := by
  have hpos : 0 < arr.length := List.length_pos.mpr hne
  have hv := hr r.idx
  have hlt : (r.stream r.idx).floorMul arr.length < arr.length := by
    unfold Frac.floorMul
    rw [Nat.div_lt_iff_lt_mul hv.1, Nat.mul_comm arr.length _]
    exact (Nat.mul_lt_mul_right hpos).mpr hv.2
  refine ⟨arr.get ⟨(r.stream r.idx).floorMul arr.length, hlt⟩, List.get_mem _ _ _, ?_⟩
  unfold pickRandom
  rw [if_neg (by omega)]
  simp only [RngState.draw]
  rw [List.get?_eq_get hlt]

/-- `pickRandom` on the empty array returns `null` without drawing. -/
theorem pickRandom_nil {α : Type} (r : RngState) :
    pickRandom ([] : List α) r = (none, r) := rfl

theorem statesInOrder_go_subset : ∀ (seen : List JStr) (l : List Senator) (st : JStr),
    st ∈ statesInOrder.go seen l → ∃ s ∈ l, st = s.state
  | _, [], _ => by simp [statesInOrder.go]
  | seen, s :: rest, st => by
    intro h
    unfold statesInOrder.go at h
    by_cases hmem : s.state ∈ seen
    · rw [if_pos hmem] at h
      obtain ⟨s', hs', heq⟩ := statesInOrder_go_subset seen rest st h
      exact ⟨s', List.mem_cons_of_mem _ hs', heq⟩
    · rw [if_neg hmem] at h
      rcases List.mem_cons.mp h with heq | h'
      · exact ⟨s, List.mem_cons_self _ _, heq⟩
      · obtain ⟨s', hs', heq⟩ := statesInOrder_go_subset _ rest st h'
        exact ⟨s', List.mem_cons_of_mem _ hs', heq⟩

theorem uniqueStates_subset {senators : List Senator} {st : JStr}
    (h : st ∈ uniqueStates senators) : ∃ s ∈ senators, st = s.state :=
  statesInOrder_go_subset [] senators st h

theorem uniqueStates_ne_nil {senators : List Senator} (h : senators ≠ []) :
    uniqueStates senators ≠ [] := by
  cases senators with
  | nil => exact absurd rfl h
  | cons s rest =>
    unfold uniqueStates statesInOrder statesInOrder.go
    simp

/-- The `getByStatePartySeniority` filter for a truthy state and seniority
and an absent party is the plain state-and-seniority filter. -/
theorem getBySS_eq (senators : List Senator) {st sen : JStr}
    (hst : st ≠ []) (hsen : sen ≠ []) :
    getByStatePartySeniority senators (some st) none (some sen) =
      senators.filter (fun s => decide (s.state = st ∧ s.seniority = sen)) := by
  unfold getByStatePartySeniority
  apply List.filter_congr
  intro s _
  simp [checkField, hst, hsen, Bool.and_comm]

/-- The bounded-attempt loop of `stateSeniority`: whatever the fuel, a
produced question's filled `(state, seniority)` pair matches exactly one
roster entity, whose official name is the sole correct answer; when the
fuel runs out the result is the typed `ambiguous_answer` failure. -/
theorem stateSeniorityGo_spec (difficulty : JStr) (senators : List Senator)
    (hst : ∀ s ∈ senators, s.state ≠ []) :
    ∀ (n : Nat) (sup amb : RngState), sup.valid →
    (∀ q sup' amb',
      Generator.stateSeniorityGo difficulty senators n sup amb = (.ok q, sup', amb') →
      ∃ st sen m,
        q.filled_variables = [("state".toList, st), ("seniority".toList, sen)] ∧
        senators.filter (fun s => decide (s.state = st ∧ s.seniority = sen)) = [m] ∧
        q.correct_answers = [officialName m]) ∧
    (∀ e sup' amb',
      Generator.stateSeniorityGo difficulty senators n sup amb = (.err e, sup', amb') →
      e.error_type = "ambiguous_answer".toList)
  | 0, sup, amb, _ => by
    constructor
    · intro q sup' amb' h
      simp [Generator.stateSeniorityGo] at h
    · intro e sup' amb' h
      simp only [Generator.stateSeniorityGo, Prod.mk.injEq, QResult.err.injEq] at h
      rw [← h.1]
      rfl
  | n + 1, sup, amb, hsup => by
    by_cases hempty : senators = []
    · subst hempty
      have h1 : pickRandom (uniqueStates ([] : List Senator)) sup = (none, sup) :=
        pickRandom_nil sup
      obtain ⟨sen, hsenm, h2⟩ :=
        @pickRandom_mem _ senioritiesList _ hsup (by decide)
      have hg : getByStatePartySeniority ([] : List Senator) none none (some sen) = [] :=
        rfl
      constructor
      · intro q sup' amb' h
        simp only [Generator.stateSeniorityGo, h1, h2, hg] at h
        exact (stateSeniorityGo_spec difficulty [] hst n ⟨sup.stream, sup.idx + 1⟩
          amb hsup).1 q sup' amb' h
      · intro e sup' amb' h
        simp only [Generator.stateSeniorityGo, h1, h2, hg] at h
        exact (stateSeniorityGo_spec difficulty [] hst n ⟨sup.stream, sup.idx + 1⟩
          amb hsup).2 e sup' amb' h
    · obtain ⟨st, hstm, h1⟩ := pickRandom_mem hsup (uniqueStates_ne_nil hempty)
      obtain ⟨sen, hsenm, h2⟩ :=
        @pickRandom_mem _ senioritiesList { sup with idx := sup.idx + 1 }
          hsup (by decide)
      have hstne : st ≠ [] := by
        obtain ⟨s0, hs0, rfl⟩ := uniqueStates_subset hstm
        exact hst s0 hs0
      have hsenne : sen ≠ [] := by
        have hcase : sen = "Senior".toList ∨ sen = "Junior".toList := by
          simpa [senioritiesList] using hsenm
        rcases hcase with h | h <;> subst h <;> decide
      have hget := getBySS_eq senators hstne hsenne
      constructor
      · intro q sup' amb' h
        simp only [Generator.stateSeniorityGo, h1, h2, hget] at h
        rcases hm : senators.filter
            (fun s => decide (s.state = st ∧ s.seniority = sen)) with _ | ⟨m, rest⟩
        · rw [hm] at h
          exact (stateSeniorityGo_spec difficulty senators hst n
            ⟨sup.stream, sup.idx + 1 + 1⟩ amb hsup).1 q sup' amb' h
        · rcases rest with _ | ⟨m2, rest2⟩
          · rw [hm] at h
            simp only [Prod.mk.injEq, QResult.ok.injEq] at h
            obtain ⟨hq, -, -⟩ := h
            refine ⟨st, sen, m, ?_, hm, ?_⟩ <;> rw [← hq] <;> simp [optVal]
          · rw [hm] at h
            exact (stateSeniorityGo_spec difficulty senators hst n
              ⟨sup.stream, sup.idx + 1 + 1⟩ amb hsup).1 q sup' amb' h
      · intro e sup' amb' h
        simp only [Generator.stateSeniorityGo, h1, h2, hget] at h
        rcases hm : senators.filter
            (fun s => decide (s.state = st ∧ s.seniority = sen)) with _ | ⟨m, rest⟩
        · rw [hm] at h
          exact (stateSeniorityGo_spec difficulty senators hst n
            ⟨sup.stream, sup.idx + 1 + 1⟩ amb hsup).2 e sup' amb' h
        · rcases rest with _ | ⟨m2, rest2⟩
          · rw [hm] at h
            simp at h
          · rw [hm] at h
            exact (stateSeniorityGo_spec difficulty senators hst n
              ⟨sup.stream, sup.idx + 1 + 1⟩ amb hsup).2 e sup' amb' h

/-! ### Claim theorems: generator -/

/-- C3: every Question the `state_seniority` filler returns has exactly
one roster entity matching its filled `(state, seniority)` pair — never 0,
never 2 or more — and its correct answers are exactly that entity's
official name; and when the 40 bounded random draws all fail, the filler
returns a typed failure (`ambiguous_answer`) instead of a Question. -/
theorem c3_state_seniority_unique (difficulty : JStr) (senators : List Senator)
    (sup amb : RngState) (hst : ∀ s ∈ senators, s.state ≠ []) (hsup : sup.valid) :
    (∀ q sup' amb',
      Generator.stateSeniority difficulty senators sup amb = (.ok q, sup', amb') →
      ∃ st sen m,
        q.filled_variables = [("state".toList, st), ("seniority".toList, sen)] ∧
        senators.filter (fun s => decide (s.state = st ∧ s.seniority = sen)) = [m] ∧
        q.correct_answers = [officialName m]) ∧
    (∀ e sup' amb',
      Generator.stateSeniority difficulty senators sup amb = (.err e, sup', amb') →
      e.error_type = "ambiguous_answer".toList) :=
  stateSeniorityGo_spec difficulty senators hst 40 sup amb hsup

theorem c3_state_seniority_unique_witness :
    (∀ s ∈ c3Roster, s.state ≠ []) ∧
    ((∀ q sup' amb',
      Generator.stateSeniority "Easy".toList c3Roster rngZero rngZero =
        (.ok q, sup', amb') →
      ∃ st sen m,
        q.filled_variables = [("state".toList, st), ("seniority".toList, sen)] ∧
        c3Roster.filter (fun s => decide (s.state = st ∧ s.seniority = sen)) = [m] ∧
        q.correct_answers = [officialName m]) ∧
    (∀ e sup' amb',
      Generator.stateSeniority "Easy".toList c3Roster rngZero rngZero =
        (.err e, sup', amb') →
      e.error_type = "ambiguous_answer".toList)) :=
  ⟨by decide,
    c3_state_seniority_unique "Easy".toList c3Roster rngZero rngZero (by decide)
      (fun _ => ⟨Nat.one_pos, Nat.one_pos⟩)⟩

/-- The template-attempt loop returns either the first successful
question or the typed `unsolvable_template` failure. -/
theorem genLoop_ok_or_unsolvable (difficulty : JStr) (senators : List Senator) :
    (keys : List JStr) → ∀ sup amb : RngState,
    (∃ q sup' amb',
      Generator.genLoop difficulty senators keys sup amb = (.ok q, sup', amb')) ∨
    (∃ sup' amb',
      Generator.genLoop difficulty senators keys sup amb =
        (.err (errorObject "unsolvable_template".toList
          "No suitable template could be generated for the current dataset.".toList
          none), sup', amb'))
  | [], sup, amb => Or.inr ⟨sup, amb, rfl⟩
  | k :: rest, sup, amb => by
    rcases h : Generator.tryTemplate k difficulty senators sup amb with ⟨res, sup1, amb1⟩
    cases res with
    | ok q =>
      exact Or.inl ⟨q, sup1, amb1, by simp [Generator.genLoop, h]⟩
    | err e =>
      rcases genLoop_ok_or_unsolvable difficulty senators rest sup1 amb1 with
        ⟨q, s', a', hh⟩ | ⟨s', a', hh⟩
      · exact Or.inl ⟨q, s', a', by simp [Generator.genLoop, h, hh]⟩
      · exact Or.inr ⟨s', a', by simp [Generator.genLoop, h, hh]⟩

/-- C5: for the two difficulty tiers, on any roster (including the empty
one) and any sources, `generateQuestion` returns either a Question (from
the first succeeding template of the shuffled order) or the typed
`unsolvable_template` failure when every template fails; the embedding is
a total function, so no exception is ever raised on an unsatisfiable or
empty roster.  (The tier hypothesis reflects that indexing `Templates`
with any other string throws in JS and is not modelled.) -/
theorem c5_question_or_unsolvable (difficulty : JStr) (senators : List Senator)
    (sup amb : RngState)
    (hd : difficulty = "Easy".toList ∨ difficulty = "Hard".toList) :
    (∃ q sup' amb',
      Generator.generateQuestion difficulty senators sup amb = (.ok q, sup', amb')) ∨
    (∃ sup' amb',
      Generator.generateQuestion difficulty senators sup amb =
        (.err (errorObject "unsolvable_template".toList
          "No suitable template could be generated for the current dataset.".toList
          none), sup', amb')) := by
  rcases hd with h | h <;>
  · subst h
    simp only [Generator.generateQuestion]
    rcases hs : shuffleInPlace (Templates _) sup with ⟨allowed, sup1⟩
    exact genLoop_ok_or_unsolvable _ senators allowed sup1 amb

theorem c5_question_or_unsolvable_witness :
    ("Easy".toList = "Easy".toList ∨ "Easy".toList = "Hard".toList) ∧
    ((∃ q sup' amb',
      Generator.generateQuestion "Easy".toList [] rngZero rngZero =
        (.ok q, sup', amb')) ∨
    (∃ sup' amb',
      Generator.generateQuestion "Easy".toList [] rngZero rngZero =
        (.err (errorObject "unsolvable_template".toList
          "No suitable template could be generated for the current dataset.".toList
          none), sup', amb'))) :=
  ⟨Or.inl rfl,
    c5_question_or_unsolvable "Easy".toList [] rngZero rngZero (Or.inl rfl)⟩

/-! ### C6: supplied-rng determinism and the ambient `Math.random` leaks -/

theorem portraitOnly_amb (difficulty : JStr) (senators : List Senator)
    (sup amb amb' : RngState) :
    (Generator.portraitOnly difficulty senators sup amb).2.1 =
      (Generator.portraitOnly difficulty senators sup amb').2.1 ∧
    coreAgree (Generator.portraitOnly difficulty senators sup amb).1
      (Generator.portraitOnly difficulty senators sup amb').1 := by
  rcases hp : pickRandom senators sup with ⟨sOpt, sup1⟩
  cases sOpt with
  | none => simp [Generator.portraitOnly, hp, coreAgree]
  | some s =>
    by_cases hport : s.portrait = [] <;>
      simp [Generator.portraitOnly, hp, hport, coreAgree, makeId]

theorem stateAny_amb (senators : List Senator) (sup amb amb' : RngState) :
    (Generator.stateAny senators sup amb).2.1 =
      (Generator.stateAny senators sup amb').2.1 ∧
    coreAgree (Generator.stateAny senators sup amb).1
      (Generator.stateAny senators sup amb').1 := by
  rcases hp : pickRandom ((statesInOrder senators).filter
      (fun st => 1 ≤ (senators.filter (fun s => s.state = st)).length)) sup with ⟨stOpt, sup1⟩
  cases stOpt with
  | none => simp [Generator.stateAny, hp, coreAgree]
  | some st =>
    by_cases hlen : (senators.filter (fun s => s.state = st)).length < 1 <;>
      simp [Generator.stateAny, hp, hlen, coreAgree, makeId]

theorem statePartyAnyGo_amb (senators : List Senator) :
    ∀ (n : Nat) (sup amb amb' : RngState),
      (Generator.statePartyAnyGo senators n sup amb).2.1 =
        (Generator.statePartyAnyGo senators n sup amb').2.1 ∧
      coreAgree (Generator.statePartyAnyGo senators n sup amb).1
        (Generator.statePartyAnyGo senators n sup amb').1
  | 0, sup, amb, amb' => ⟨rfl, rfl⟩
  | n + 1, sup, amb, amb' => by
    rcases hp1 : pickRandom (uniqueStates senators) sup with ⟨stOpt, sup1⟩
    rcases hp2 : pickRandom partiesList sup1 with ⟨paOpt, sup2⟩
    by_cases hm : 1 ≤ (getByStatePartySeniority senators stOpt paOpt none).length
    · simp [Generator.statePartyAnyGo, hp1, hp2, hm, coreAgree, makeId]
    · have ih := statePartyAnyGo_amb senators n sup2 amb amb'
      simp only [Generator.statePartyAnyGo, hp1, hp2, hm, if_false]
      exact ih

theorem stateSeniorityGo_amb (difficulty : JStr) (senators : List Senator) :
    ∀ (n : Nat) (sup amb amb' : RngState),
      (Generator.stateSeniorityGo difficulty senators n sup amb).2.1 =
        (Generator.stateSeniorityGo difficulty senators n sup amb').2.1 ∧
      coreAgree (Generator.stateSeniorityGo difficulty senators n sup amb).1
        (Generator.stateSeniorityGo difficulty senators n sup amb').1
  | 0, sup, amb, amb' => ⟨rfl, rfl⟩
  | n + 1, sup, amb, amb' => by
    rcases hp1 : pickRandom (uniqueStates senators) sup with ⟨stOpt, sup1⟩
    rcases hp2 : pickRandom senioritiesList sup1 with ⟨seOpt, sup2⟩
    rcases hm : getByStatePartySeniority senators stOpt none seOpt with _ | ⟨m, rest⟩
    · have ih := stateSeniorityGo_amb difficulty senators n sup2 amb amb'
      simp only [Generator.stateSeniorityGo, hp1, hp2, hm]
      exact ih
    · cases rest with
      | nil => simp [Generator.stateSeniorityGo, hp1, hp2, hm, coreAgree, makeId]
      | cons m2 rest2 =>
        have ih := stateSeniorityGo_amb difficulty senators n sup2 amb amb'
        simp only [Generator.stateSeniorityGo, hp1, hp2, hm]
        exact ih

theorem statePartySeniorityGo_amb (senators : List Senator) :
    ∀ (n : Nat) (sup amb amb' : RngState),
      (Generator.statePartySeniorityGo senators n sup amb).2.1 =
        (Generator.statePartySeniorityGo senators n sup amb').2.1 ∧
      coreAgree (Generator.statePartySeniorityGo senators n sup amb).1
        (Generator.statePartySeniorityGo senators n sup amb').1
  | 0, sup, amb, amb' => ⟨rfl, rfl⟩
  | n + 1, sup, amb, amb' => by
    rcases hp1 : pickRandom (uniqueStates senators) sup with ⟨stOpt, sup1⟩
    rcases hp2 : pickRandom partiesList sup1 with ⟨paOpt, sup2⟩
    rcases hp3 : pickRandom senioritiesList sup2 with ⟨seOpt, sup3⟩
    rcases hm : getByStatePartySeniority senators stOpt paOpt seOpt with _ | ⟨m, rest⟩
    · have ih := statePartySeniorityGo_amb senators n sup3 amb amb'
      simp only [Generator.statePartySeniorityGo, hp1, hp2, hp3, hm]
      exact ih
    · cases rest with
      | nil => simp [Generator.statePartySeniorityGo, hp1, hp2, hp3, hm, coreAgree, makeId]
      | cons m2 rest2 =>
        have ih := statePartySeniorityGo_amb senators n sup3 amb amb'
        simp only [Generator.statePartySeniorityGo, hp1, hp2, hp3, hm]
        exact ih

theorem partyOfPortrait_amb (senators : List Senator) (sup amb amb' : RngState) :
    (Generator.partyOfPortrait senators sup amb).2.1 =
      (Generator.partyOfPortrait senators sup amb').2.1 ∧
    coreAgree (Generator.partyOfPortrait senators sup amb).1
      (Generator.partyOfPortrait senators sup amb').1 := by
  rcases hp : pickRandom senators sup with ⟨sOpt, sup1⟩
  cases sOpt with
  | none => simp [Generator.partyOfPortrait, hp, coreAgree]
  | some s => simp [Generator.partyOfPortrait, hp, coreAgree, makeId]

theorem stateOfPortrait_amb (senators : List Senator) (sup amb amb' : RngState) :
    (Generator.stateOfPortrait senators sup amb).2.1 =
      (Generator.stateOfPortrait senators sup amb').2.1 ∧
    coreAgree (Generator.stateOfPortrait senators sup amb).1
      (Generator.stateOfPortrait senators sup amb').1 := by
  rcases hp : pickRandom senators sup with ⟨sOpt, sup1⟩
  cases sOpt with
  | none => simp [Generator.stateOfPortrait, hp, coreAgree]
  | some s => simp [Generator.stateOfPortrait, hp, coreAgree, makeId]

theorem partyOfRandom_amb (difficulty : JStr) (senators : List Senator)
    (sup amb amb' : RngState) :
    (Generator.partyOfRandom difficulty senators sup amb).2.1 =
      (Generator.partyOfRandom difficulty senators sup amb').2.1 ∧
    coreAgree (Generator.partyOfRandom difficulty senators sup amb).1
      (Generator.partyOfRandom difficulty senators sup amb').1 := by
  rcases hp : pickRandom senators sup with ⟨sOpt, sup1⟩
  cases sOpt with
  | none => simp [Generator.partyOfRandom, hp, coreAgree]
  | some s => simp [Generator.partyOfRandom, hp, coreAgree, makeId, RngState.draw]

theorem stateOfRandom_amb (difficulty : JStr) (senators : List Senator)
    (sup amb amb' : RngState) :
    (Generator.stateOfRandom difficulty senators sup amb).2.1 =
      (Generator.stateOfRandom difficulty senators sup amb').2.1 ∧
    coreAgree (Generator.stateOfRandom difficulty senators sup amb).1
      (Generator.stateOfRandom difficulty senators sup amb').1 := by
  rcases hp : pickRandom senators sup with ⟨sOpt, sup1⟩
  cases sOpt with
  | none => simp [Generator.stateOfRandom, hp, coreAgree]
  | some s => simp [Generator.stateOfRandom, hp, coreAgree, makeId, RngState.draw]

set_option maxHeartbeats 1000000 in
theorem tryTemplate_amb (key difficulty : JStr) (senators : List Senator)
    (sup amb amb' : RngState) :
    (Generator.tryTemplate key difficulty senators sup amb).2.1 =
      (Generator.tryTemplate key difficulty senators sup amb').2.1 ∧
    coreAgree (Generator.tryTemplate key difficulty senators sup amb).1
      (Generator.tryTemplate key difficulty senators sup amb').1 := by
  unfold Generator.tryTemplate
  split_ifs
  · exact portraitOnly_amb difficulty senators sup amb amb'
  · exact stateAny_amb senators sup amb amb'
  · exact statePartyAnyGo_amb senators 30 sup amb amb'
  · exact stateSeniorityGo_amb difficulty senators 40 sup amb amb'
  · exact statePartySeniorityGo_amb senators 50 sup amb amb'
  · exact partyOfPortrait_amb senators sup amb amb'
  · exact stateOfPortrait_amb senators sup amb amb'
  · exact partyOfRandom_amb difficulty senators sup amb amb'
  · exact stateOfRandom_amb difficulty senators sup amb amb'
  · exact ⟨rfl, rfl⟩

theorem genLoop_amb (difficulty : JStr) (senators : List Senator) :
    ∀ (keys : List JStr) (sup amb amb' : RngState),
      (Generator.genLoop difficulty senators keys sup amb).2.1 =
        (Generator.genLoop difficulty senators keys sup amb').2.1 ∧
      coreAgree (Generator.genLoop difficulty senators keys sup amb).1
        (Generator.genLoop difficulty senators keys sup amb').1
  | [], sup, amb, amb' => ⟨rfl, rfl⟩
  | k :: rest, sup, amb, amb' => by
    have h := tryTemplate_amb k difficulty senators sup amb amb'
    rcases h1 : Generator.tryTemplate k difficulty senators sup amb with ⟨r1, sup1, a1⟩
    rcases h2 : Generator.tryTemplate k difficulty senators sup amb' with ⟨r2, sup2, a2⟩
    rw [h1, h2] at h
    simp only [Generator.genLoop, h1, h2]
    cases r1 with
    | ok q1 =>
      cases r2 with
      | ok q2 => exact h
      | err e2 => exact h.2.elim
    | err e1 =>
      cases r2 with
      | ok q2 => exact h.2.elim
      | err e2 =>
        have hsup : sup1 = sup2 := h.1
        subst hsup
        exact genLoop_amb difficulty senators rest sup1 a1 a2

/-- C6 (counterexample): `generateQuestion` is not a function of the
supplied rng alone.  On a one-senator portrait-less Hard roster, two calls
with the same supplied source but different ambient `Math.random` streams
return different results: the `portrait_only` template fails, the ambient
coin flip inside `party_of_random` then picks different presentation
variants (and `makeId` different ids). -/
theorem c6_same_rng_different_ambient_results :
    (Generator.generateQuestion "Hard".toList [c6Senator] rngHalf rngZero).1 ≠
      (Generator.generateQuestion "Hard".toList [c6Senator] rngHalf rngThreeQuarters).1 := by
  decide

/-- C6 (amended): `generateQuestion` is deterministic in the supplied rng
only up to the ambient draws: for every tier, roster and supplied source,
two calls differing only in the ambient stream consume the supplied
source identically (equal outgoing supplied states, hence the same
shuffled template order and the same filled values) and agree on the
outcome core — identical error objects on failure, and on success equal
difficulty, correct answers and allowed answer modes — while the id and
the coin-picked presentation fields depend on `Math.random`. -/
theorem c6_deterministic_up_to_ambient (difficulty : JStr) (senators : List Senator)
    (sup amb amb' : RngState) :
    (Generator.generateQuestion difficulty senators sup amb).2.1 =
      (Generator.generateQuestion difficulty senators sup amb').2.1 ∧
    coreAgree (Generator.generateQuestion difficulty senators sup amb).1
      (Generator.generateQuestion difficulty senators sup amb').1 := by
  rcases hs : shuffleInPlace (Templates difficulty) sup with ⟨allowed, sup1⟩
  simp only [Generator.generateQuestion, hs]
  exact genLoop_amb difficulty senators allowed sup1 amb amb'

end SenatorQuiz

/-- C7: the Easy-mode fuzzy acceptance rule is a threshold on standard
unit-cost Levenshtein distance over the normalized strings — at most 2
when the normalized target has length at least 7, at most 1 otherwise —
where the standard distance is witnessed by Mathlib's `levenshtein` at the
all-unit cost structure (insertions, deletions and substitutions cost 1,
no transpositions). -/
theorem c7_threshold_is_standard_levenshtein :
    (∀ input target : SenatorQuiz.JStr,
      SenatorQuiz.withinMisspellingThreshold input target = true ↔
        (if 7 ≤ (SenatorQuiz.normalizeName target).length
          then SenatorQuiz.levSpec (SenatorQuiz.normalizeName input)
            (SenatorQuiz.normalizeName target) ≤ 2
          else SenatorQuiz.levSpec (SenatorQuiz.normalizeName input)
            (SenatorQuiz.normalizeName target) ≤ 1)) ∧
    (∀ xs ys : SenatorQuiz.JStr,
      SenatorQuiz.levSpec xs ys = levenshtein Levenshtein.defaultCost xs ys) := by
  constructor
  · intro input target
    by_cases h7 : 7 ≤ (SenatorQuiz.normalizeName target).length <;>
      simp [SenatorQuiz.withinMisspellingThreshold, h7,
        SenatorQuiz.levenshtein_eq_levSpec, SenatorQuiz.normalizeName_idem]
  · exact levSpec_eq_defaultCost

